import Mathlib

/-!
Shallow embedding of `src/data/database-prep/create_database.py`
(class `SupplyChainDB` and its command-line entry point `main`).

Modelling conventions:
* A pandas DataFrame read from a CSV is a `Frame`: a header (`cols`) plus a
  list of rows; each row is an association list from column name to `Val`.
* A cell value `Val` abstracts the CSV cell contents.  `Val.dt d t` stands
  for any cell that `pd.to_datetime` parses as a datetime with calendar date
  `d` and time-of-day `t`; `Val.d d` is a pure calendar date (the result of
  `.dt.date`); `Val.s x` stands for a cell that `pd.to_datetime` rejects
  (raises) when asked to parse it; `Val.null` is NaN (parses to NaT without
  an error).  Numeric-epoch parsing of integer cells is not modelled; no
  claim depends on it.
* The SQLite database is a `DB`: the set of live user tables
  (`sqlite_master` contents), each table's rows, the session's
  `PRAGMA foreign_keys` flag, and the set of open connection handles
  together with the handle currently stored in `self.conn`.
  `sqlite3.connect` allocates a fresh handle; the `with conn:` blocks of the
  source manage transactions only and never close a handle, which the model
  reflects by leaving `openHandles` untouched at block exit.
* The store-side insert checks (CHECK / NOT NULL constraints and foreign
  keys) are abstracted as the two predicates `checkRow` and `fkCheck`
  carried by the `DB`; SQLite applies the foreign-key check only while
  `PRAGMA foreign_keys` is on, which `insertOk` reflects.
* `DELETE FROM t` followed by `conn.commit()` is modelled by setting the
  table's rows to `[]`; a failing `to_sql` insert afterwards leaves the
  table empty (the explicit commit made the delete durable, and the
  transaction rollback at `with`-block exit only discards the partial
  insert).
-/

namespace SCDB

/-- A CSV cell value, classified by how `pd.to_datetime` treats it. -/
inductive Val where
  | s (x : String)
  | i (x : Int)
  | dt (date : Int) (time : Int)
  | d (date : Int)
  | null
deriving DecidableEq, Repr

/-- One DataFrame row: an association list from column name to cell value. -/
abbrev Row := List (String × Val)

/-- A DataFrame read from a CSV: header plus rows. -/
structure Frame where
  cols : List String
  rows : List Row
deriving DecidableEq, Repr

/-- Access a row's cell in a named column (`df[col]` for one row). -/
def getCell (r : Row) (c : String) : Option Val :=
  match r with
  | [] => none
  | (k, v) :: rest => if k = c then some v else getCell rest c

/-- The values of a row on a list of key columns (`df[subset]` for one row). -/
def rowKeyOn (pk : List String) (r : Row) : List (Option Val) :=
  pk.map (fun c => getCell r c)

/-- Kernel of `df.drop_duplicates(subset, keep="first")`: keep a row only if
its key was not seen among earlier rows. -/
def dedupAux {β : Type} [DecidableEq β] (key : Row → β) :
    List Row → List β → List Row
  | [], _ => []
  | r :: rs, seen =>
    if key r ∈ seen then dedupAux key rs seen
    else r :: dedupAux key rs (key r :: seen)

/-- `df.drop_duplicates(subset, keep="first")` on the rows of a frame. -/
def dedupKeepFirst {β : Type} [DecidableEq β] (key : Row → β)
    (rows : List Row) : List Row :=
  dedupAux key rows []

/-- Kernel of `df.duplicated(subset).sum()`: count rows whose key occurred
in an earlier row. -/
def dupCountAux {β : Type} [DecidableEq β] (key : Row → β) :
    List Row → List β → Nat
  | [], _ => 0
  | r :: rs, seen =>
    if key r ∈ seen then dupCountAux key rs seen + 1
    else dupCountAux key rs (key r :: seen)

/-- `df.duplicated(subset).sum()`: the number of later duplicate rows. -/
def duplicatedCount {β : Type} [DecidableEq β] (key : Row → β)
    (rows : List Row) : Nat :=
  dupCountAux key rows []

/-- `pd.to_datetime(v).dt.date` on one cell: a datetime keeps its calendar
date and drops the time of day; NaN stays NaT; anything else raises
(modelled as `none`). -/
def parseDate : Val → Option Val
  | .dt date _ => some (.d date)
  | .d date => some (.d date)
  | .null => some .null
  | _ => none

/-- Replace every entry of column `c` in a row by its parsed date; `none`
if some value in that column cannot be parsed. -/
def convertRowCol (c : String) : Row → Option Row
  | [] => some []
  | (k, v) :: rest =>
    if k = c then
      match parseDate v with
      | none => none
      | some v2 => (convertRowCol c rest).map (fun r2 => (k, v2) :: r2)
    else
      (convertRowCol c rest).map (fun r2 => (k, v) :: r2)

/-- `df[col] = pd.to_datetime(df[col]).dt.date` over all rows. -/
def convertColumn (c : String) : List Row → Option (List Row)
  | [] => some []
  | r :: rs =>
    match convertRowCol c r with
    | none => none
    | some r2 =>
      match convertColumn c rs with
      | none => none
      | some rs2 => some (r2 :: rs2)

/-- The loader's date-normalization loop: for each named column that is
present in the frame's header, parse the whole column; a column absent from
the header is skipped. -/
def convertDates (dateCols : List String) (cols : List String)
    (rows : List Row) : Option (List Row) :=
  match dateCols with
  | [] => some rows
  | c :: rest =>
    if c ∈ cols then
      match convertColumn c rows with
      | none => none
      | some rows2 => convertDates rest cols rows2
    else
      convertDates rest cols rows

/-- `PRIMARY_KEYS`: table name to declared primary-key column set. -/
def PRIMARY_KEYS : String → Option (List String)
  | "vendor" => some ["vendor_id"]
  | "product" => some ["sku_id"]
  | "warehouse" => some ["warehouse_id"]
  | "purchase_order" => some ["po_id"]
  | "shipment" => some ["shipment_id"]
  | "inventory" => some ["warehouse_id", "sku_id"]
  | "demand" => some ["date", "sku_id"]
  | _ => none

/-- The seven tables created by `create_tables`, in script order. -/
def sevenTables : List String :=
  ["vendor", "warehouse", "product", "purchase_order", "inventory",
   "shipment", "demand"]

/-- The persistent store plus the per-run connection state. -/
structure DB where
  live : List String
  rows : String → List Row
  checkRow : String → Row → Bool
  fkCheck : String → Row → Bool
  fkEnforce : Bool
  openHandles : List Nat
  nextHandle : Nat
  connOpen : Option Nat

/-- A `fk_filters` reference query: reads a set of valid key values out of
the current store (e.g. `SELECT po_id FROM purchase_order;`). -/
abbrev Query := DB → List Val

/-- `connect()`: open a fresh sqlite connection (a new handle every call,
overwriting `self.conn` without closing the previous handle) and run
`PRAGMA foreign_keys = ON` on it. -/
def connect (db : DB) : DB :=
  { db with
    fkEnforce := true,
    openHandles := db.nextHandle :: db.openHandles,
    nextHandle := db.nextHandle + 1,
    connOpen := some db.nextHandle }

/-- `close()`: close the connection currently stored in `self.conn`, if
any; earlier connections are not tracked and stay open. -/
def close (db : DB) : DB :=
  match db.connOpen with
  | none => db
  | some h => { db with openHandles := db.openHandles.erase h, connOpen := none }

/-- Overwrite one table's rows (used for `DELETE FROM t` and for the bulk
insert of `to_sql`). -/
def setTable (db : DB) (T : String) (rs : List Row) : DB :=
  { db with rows := fun t => if t = T then rs else db.rows t }

/-- Whether SQLite accepts a batch insert: every row must pass the table's
CHECK / NOT NULL constraints, and also its foreign-key constraints when
`PRAGMA foreign_keys` is on for the session. -/
def insertOk (db : DB) (T : String) (rs : List Row) : Bool :=
  rs.all (fun r => db.checkRow T r && (!db.fkEnforce || db.fkCheck T r))

/-- `SELECT c FROM T;` as used by the foreign-key filter queries. -/
def colValues (db : DB) (T c : String) : List Val :=
  (db.rows T).filterMap (fun r => getCell r c)

/-- Whether a row survives one foreign-key filter:
`df[df[column].isin(allowed)]`. -/
def passesFk (db : DB) (c : String) (q : Query) (r : Row) : Bool :=
  match getCell r c with
  | some v => decide (v ∈ q db)
  | none => false

/-- The loader's `fk_filters` loop: an entry whose column is absent from the
frame's header is skipped (`continue`); otherwise the rows are restricted to
those whose value is in the reference query's current result, and the
number of removed rows is recorded. -/
def applyFkFilters (db : DB) (cols : List String) :
    List (String × Query) → List Row → List Row × List (String × Nat)
  | [], rows => (rows, [])
  | (c, q) :: rest, rows =>
    if c ∈ cols then
      let kept := rows.filter (passesFk db c q)
      let res := applyFkFilters db cols rest kept
      (res.1, (c, rows.length - kept.length) :: res.2)
    else
      applyFkFilters db cols rest rows

/-- `df.duplicated(subset=pk_subset)` raises `KeyError` when a declared key
column is missing from the frame; this predicate is the guard. -/
def pkColsOk (T : String) (cols : List String) : Bool :=
  match PRIMARY_KEYS T with
  | some pk => pk.all (fun c => decide (c ∈ cols))
  | none => true

/-- The duplicate count the loader warns about: keyed on the table's
declared primary key when there is one, on whole rows otherwise
(`subset=None`). -/
def dupWarnCount (T : String) (rows : List Row) : Nat :=
  match PRIMARY_KEYS T with
  | some pk => duplicatedCount (rowKeyOn pk) rows
  | none => duplicatedCount (fun r => r) rows

/-- The dedup step: `drop_duplicates` runs only when the table has a
declared primary key (`if pk_subset:`). -/
def dedupStage (T : String) (rows : List Row) : List Row :=
  match PRIMARY_KEYS T with
  | some pk => dedupKeepFirst (rowKeyOn pk) rows
  | none => rows

/-- What one call of `load_data_from_csv` did. -/
inductive Outcome where
  | skippedMissing
  | loaded (n : Nat)
  | fatal (msg : String)
deriving DecidableEq, Repr

/-- The store state after a load call together with its reported counts. -/
structure LoadResult where
  db : DB
  outcome : Outcome
  dupWarned : Nat
  dupDropped : Nat
  fkRemoved : List (String × Nat)

/-- `load_data_from_csv(table_name, csv_path, date_columns, fk_filters)`:
a missing CSV is a warning-and-return; otherwise dedup by declared primary
key (keep first), convert the date columns, connect, filter against the
foreign-key queries, `DELETE FROM` the table (committed), then append the
remaining rows with `to_sql`.  A date value that does not parse raises
before the connection is opened; an insert-time constraint violation raises
after the committed delete. -/
def load_data_from_csv (db : DB) (T : String) (src : Option Frame)
    (dateCols : List String) (fkFilters : List (String × Query)) : LoadResult :=
  match src with
  | none =>
    { db := db, outcome := .skippedMissing, dupWarned := 0, dupDropped := 0,
      fkRemoved := [] }
  | some f =>
    if pkColsOk T f.cols then
      let warned := dupWarnCount T f.rows
      let rows1 := dedupStage T f.rows
      let dropped := f.rows.length - rows1.length
      match convertDates dateCols f.cols rows1 with
      | none =>
        { db := db, outcome := .fatal "date parse error", dupWarned := warned,
          dupDropped := dropped, fkRemoved := [] }
      | some rows2 =>
        let db1 := connect db
        let fr := applyFkFilters db1 f.cols fkFilters rows2
        if T ∈ db1.live then
          let db2 := setTable db1 T []
          if insertOk db2 T fr.1 then
            { db := setTable db2 T fr.1, outcome := .loaded fr.1.length,
              dupWarned := warned, dupDropped := dropped, fkRemoved := fr.2 }
          else
            { db := db2, outcome := .fatal "constraint violation",
              dupWarned := warned, dupDropped := dropped, fkRemoved := fr.2 }
        else
          { db := db1, outcome := .fatal "no such table",
            dupWarned := warned, dupDropped := dropped, fkRemoved := fr.2 }
    else
      { db := db, outcome := .fatal "missing key column", dupWarned := 0,
        dupDropped := 0, fkRemoved := [] }

/-- The `executescript` body of `create_tables`, run on an open session:
`CREATE TABLE IF NOT EXISTS` for each of the seven tables (a newly created
table starts empty, an existing one keeps its rows) with the script's
leading `PRAGMA foreign_keys = ON`. -/
def createTablesConn (c : DB) : DB :=
  { c with
    live := c.live ++ sevenTables.filter (fun t => decide (t ∉ c.live)),
    rows := fun t => if t ∉ c.live ∧ t ∈ sevenTables then [] else c.rows t,
    fkEnforce := true }

/-- `create_tables()`: open a session via `connect` and run the schema
script on it. -/
def create_tables (db : DB) : DB :=
  createTablesConn (connect db)

/-- Net effect of the drop loop of `main`'s recreate branch: every user
table enumerated from `sqlite_master` is dropped. -/
def dropAllTables (c : DB) : DB :=
  { c with live := [], rows := fun _ => [] }

/-- The recreate branch of `main` before `create_tables`: connect, turn
foreign-key enforcement off, enumerate and drop every live user table,
commit, and turn foreign-key enforcement back on. -/
def recreateDrop (db : DB) : DB :=
  let c := connect db
  let c1 := { c with fkEnforce := false }
  let c2 := dropAllTables c1
  { c2 with fkEnforce := true }

/-- The whole recreate operation: drop everything, then `create_tables`. -/
def recreateSchema (db : DB) : DB :=
  create_tables (recreateDrop db)

/-- Insertion sort by string order, for `ORDER BY name`. -/
def insertSorted (x : String) : List String → List String
  | [] => [x]
  | y :: ys => if x ≤ y then x :: y :: ys else y :: insertSorted x ys

/-- Sort table names, as `ORDER BY name` does. -/
def sortNames : List String → List String
  | [] => []
  | x :: xs => insertSorted x (sortNames xs)

/-- `verify_tables()`: open a session via `connect`, list the user tables in
name order and report each row count (read-only). -/
def verify_tables (db : DB) : DB × List (String × Nat) :=
  let c := connect db
  (c, (sortNames c.live).map (fun t => (t, (c.rows t).length)))

/-- The per-table CSV extracts available under `data/derived/`; `none`
models a missing file. -/
structure Env where
  sources : String → Option Frame

/-- The foreign-key filter `main` passes for the shipment load. -/
def shipmentFkFilters : List (String × Query) :=
  [("order_id", fun db => colValues db "purchase_order" "po_id")]

/-- The seven load calls of `main`, in order, with their date columns and
foreign-key filters. -/
def loadSpecs : List (String × List String × List (String × Query)) :=
  [("product", [], []),
   ("warehouse", [], []),
   ("vendor", [], []),
   ("purchase_order", ["po_date", "promised_delivery_date"], []),
   ("inventory", [], []),
   ("shipment",
    ["event_timestamp", "estimated_delivery_date", "actual_delivery_date"],
    shipmentFkFilters),
   ("demand", ["date"], [])]

/-- Run the load calls in sequence; a fatal load raises, so the remaining
tables are not loaded (the flag records that the try-block aborted). -/
def runLoads (env : Env) :
    List (String × List String × List (String × Query)) → DB → DB × Bool
  | [], db => (db, false)
  | (t, dc, fk) :: rest, db =>
    let r := load_data_from_csv db t (env.sources t) dc fk
    match r.outcome with
    | .fatal _ => (r.db, true)
    | _ => runLoads env rest r.db

/-- The try-block of `main`: create or recreate the schema, run the loads,
and (only if no load raised) verify. -/
def mainBody (recreate : Bool) (env : Env) (db0 : DB) : DB :=
  let db1 := if recreate then recreateSchema db0 else create_tables db0
  let p := runLoads env loadSpecs db1
  if p.2 then p.1 else (verify_tables p.1).1

/-- `main(recreate_tables)`: the try-block, then the `finally` clause's
`db.close()` on whatever `self.conn` holds at that point. -/
def main (recreate : Bool) (env : Env) (db0 : DB) : DB :=
  close (mainBody recreate env db0)

/-! ## Projection lemmas for the session operations -/

@[simp]
theorem connect_live (db : DB) : (connect db).live = db.live := rfl

@[simp]
theorem connect_rows (db : DB) : (connect db).rows = db.rows := rfl

@[simp]
theorem connect_checkRow (db : DB) : (connect db).checkRow = db.checkRow := rfl

@[simp]
theorem connect_fkCheck (db : DB) : (connect db).fkCheck = db.fkCheck := rfl

@[simp]
theorem connect_fkEnforce (db : DB) : (connect db).fkEnforce = true := rfl

@[simp]
theorem setTable_live (db : DB) (T : String) (rs : List Row) :
    (setTable db T rs).live = db.live := rfl

@[simp]
theorem setTable_checkRow (db : DB) (T : String) (rs : List Row) :
    (setTable db T rs).checkRow = db.checkRow := rfl

@[simp]
theorem setTable_fkCheck (db : DB) (T : String) (rs : List Row) :
    (setTable db T rs).fkCheck = db.fkCheck := rfl

@[simp]
theorem setTable_fkEnforce (db : DB) (T : String) (rs : List Row) :
    (setTable db T rs).fkEnforce = db.fkEnforce := rfl

@[simp]
theorem setTable_rows_self (db : DB) (T : String) (rs : List Row) :
    (setTable db T rs).rows T = rs := by
  simp [setTable]

/-- On a session opened by `connect` and after the committed delete, the
insert check is exactly: every row passes the table's CHECK constraints and
its foreign-key constraints (the pragma is on for the session). -/
theorem insertOk_connect_set (db : DB) (T : String) (rs : List Row) :
    insertOk (setTable (connect db) T []) T rs
      = rs.all (fun r => db.checkRow T r && db.fkCheck T r) := by
  simp [insertOk, setTable, connect]

/-! ## The successful-load and failed-insert equations -/

/-- A load whose source is present, whose key columns exist, whose date
columns parse, whose target table exists, and whose filtered rows pass the
store's insert checks, reports `loaded` and replaces the table's contents
with exactly the deduplicated, normalized, filtered record set. -/
theorem load_success (db : DB) (T : String) (f : Frame)
    (dateCols : List String) (fkFilters : List (String × Query))
    (rows2 : List Row)
    (hpk : pkColsOk T f.cols = true)
    (hconv : convertDates dateCols f.cols (dedupStage T f.rows) = some rows2)
    (hlive : T ∈ db.live)
    (hins : (applyFkFilters (connect db) f.cols fkFilters rows2).1.all
        (fun row => db.checkRow T row && db.fkCheck T row) = true) :
    (load_data_from_csv db T (some f) dateCols fkFilters).outcome
      = .loaded (applyFkFilters (connect db) f.cols fkFilters rows2).1.length
    ∧ (load_data_from_csv db T (some f) dateCols fkFilters).db.rows T
      = (applyFkFilters (connect db) f.cols fkFilters rows2).1 := by
  have hins2 : insertOk (setTable (connect db) T []) T
      (applyFkFilters (connect db) f.cols fkFilters rows2).1 = true := by
    rw [insertOk_connect_set]; exact hins
  simp only [load_data_from_csv, hpk, if_true, hconv, connect_live, hlive,
    ite_true, hins2, setTable_rows_self]
  exact ⟨trivial, trivial⟩

/-- A load that reaches the committed delete and then fails the insert
check reports a fatal error and leaves the table empty. -/
theorem load_insert_failure (db : DB) (T : String) (f : Frame)
    (dateCols : List String) (fkFilters : List (String × Query))
    (rows2 : List Row)
    (hpk : pkColsOk T f.cols = true)
    (hconv : convertDates dateCols f.cols (dedupStage T f.rows) = some rows2)
    (hlive : T ∈ db.live)
    (hins : (applyFkFilters (connect db) f.cols fkFilters rows2).1.all
        (fun row => db.checkRow T row && db.fkCheck T row) = false) :
    (load_data_from_csv db T (some f) dateCols fkFilters).outcome
      = .fatal "constraint violation"
    ∧ (load_data_from_csv db T (some f) dateCols fkFilters).db.rows T = [] := by
  have hins2 : insertOk (setTable (connect db) T []) T
      (applyFkFilters (connect db) f.cols fkFilters rows2).1 = false := by
    rw [insertOk_connect_set]; exact hins
  simp only [load_data_from_csv, hpk, if_true, hconv, connect_live, hlive,
    ite_true, hins2, Bool.false_eq_true, ite_false, setTable_rows_self]
  exact ⟨trivial, trivial⟩

/-! ## Deduplication lemmas -/

theorem dedupAux_sublist {β : Type} [DecidableEq β] (key : Row → β)
    (rows : List Row) (seen : List β) :
    List.Sublist (dedupAux key rows seen) rows := by
  induction rows generalizing seen with
  | nil => simp [dedupAux]
  | cons r rs ih =>
    simp only [dedupAux]
    split
    · exact (ih seen).cons r
    · exact (ih (key r :: seen)).cons₂ r

theorem dedupAux_filter {β : Type} [DecidableEq β] (key : Row → β) (k : β)
    (rows : List Row) (seen : List β) :
    (dedupAux key rows seen).filter (fun r => decide (key r = k))
      = if k ∈ seen then []
        else (rows.find? (fun r => decide (key r = k))).toList := by
  induction rows generalizing seen with
  | nil => simp [dedupAux]
  | cons r rs ih =>
    simp only [dedupAux]
    by_cases hseen : key r ∈ seen
    · rw [if_pos hseen, ih]
      by_cases hk : k ∈ seen
      · rw [if_pos hk, if_pos hk]
      · rw [if_neg hk, if_neg hk]
        have hne : ¬ key r = k := fun h => hk (h ▸ hseen)
        rw [List.find?_cons]
        simp [hne]
    · rw [if_neg hseen, List.filter_cons, ih]
      by_cases hrk : key r = k
      · have hk : k ∉ seen := fun h => hseen (hrk ▸ h)
        have hk2 : k ∈ key r :: seen := by rw [hrk]; exact List.mem_cons_self _ _
        rw [if_pos hk2, if_neg hk, List.find?_cons]
        simp [hrk]
      · have hmem : (k ∈ key r :: seen) ↔ (k ∈ seen) := by
          constructor
          · intro h
            rcases List.mem_cons.mp h with h1 | h1
            · exact absurd h1.symm hrk
            · exact h1
          · exact fun h => List.mem_cons_of_mem _ h
        rw [List.find?_cons]
        by_cases hk : k ∈ seen
        · rw [if_pos (hmem.mpr hk), if_pos hk]
          simp [hrk]
        · rw [if_neg (fun h => hk (hmem.mp h)), if_neg hk]
          simp [hrk]

theorem dupCountAux_add {β : Type} [DecidableEq β] (key : Row → β)
    (rows : List Row) (seen : List β) :
    dupCountAux key rows seen + (dedupAux key rows seen).length
      = rows.length := by
  induction rows generalizing seen with
  | nil => simp [dupCountAux, dedupAux]
  | cons r rs ih =>
    simp only [dupCountAux, dedupAux, List.length_cons]
    split
    · have := ih seen
      omega
    · have := ih (key r :: seen)
      simp only [List.length_cons]
      omega

theorem duplicatedCount_eq {β : Type} [DecidableEq β] (key : Row → β)
    (rows : List Row) :
    duplicatedCount key rows
      = rows.length - (dedupKeepFirst key rows).length := by
  have := dupCountAux_add key rows []
  unfold duplicatedCount dedupKeepFirst
  omega

/-! ## Date-conversion lemmas -/

theorem convertRowCol_not_mem (c : String) (r : Row)
    (h : c ∉ r.map Prod.fst) : convertRowCol c r = some r := by
  induction r with
  | nil => rfl
  | cons kv rest ih =>
    obtain ⟨k, v⟩ := kv
    simp only [List.map_cons, List.mem_cons, not_or] at h
    simp only [convertRowCol]
    rw [if_neg (fun he => h.1 he.symm), ih h.2]
    rfl

theorem convertRowCol_parses (c : String) (r : Row) (dd tt : Int)
    (hnd : (r.map Prod.fst).Nodup)
    (h : getCell r c = some (.dt dd tt)) :
    ∃ r2, convertRowCol c r = some r2 ∧ getCell r2 c = some (.d dd)
      ∧ ∀ k, k ≠ c → getCell r2 k = getCell r k := by
  induction r with
  | nil => simp [getCell] at h
  | cons kv rest ih =>
    obtain ⟨k0, v⟩ := kv
    simp only [List.map_cons, List.nodup_cons] at hnd
    simp only [getCell] at h
    by_cases hk : k0 = c
    · rw [if_pos hk] at h
      have hv : v = .dt dd tt := Option.some.inj h
      have hcm : c ∉ rest.map Prod.fst := hk ▸ hnd.1
      refine ⟨(k0, .d dd) :: rest, ?_, ?_, ?_⟩
      · simp only [convertRowCol, if_pos hk, hv, parseDate,
          convertRowCol_not_mem c rest hcm]
        rfl
      · simp [getCell, hk]
      · intro k hkc
        have hne : ¬ k0 = k := fun he => hkc ((he.symm.trans hk))
        simp [getCell, hne]
    · rw [if_neg hk] at h
      obtain ⟨r2, h1, h2, h3⟩ := ih hnd.2 h
      refine ⟨(k0, v) :: r2, ?_, ?_, ?_⟩
      · simp only [convertRowCol, if_neg hk, h1]
        rfl
      · simp [getCell, hk, h2]
      · intro k hkc
        by_cases h4 : k0 = k
        · simp [getCell, h4]
        · simp [getCell, h4, h3 k hkc]

theorem convertDates_nil_rows (dateCols cols : List String) :
    convertDates dateCols cols [] = some [] := by
  induction dateCols with
  | nil => rfl
  | cons c rest ih =>
    by_cases hc : c ∈ cols <;>
      simp [convertDates, hc, convertColumn, ih]

theorem convertDates_skip (c : String) (rest cols : List String)
    (rows : List Row) (hc : c ∉ cols) :
    convertDates (c :: rest) cols rows = convertDates rest cols rows := by
  simp [convertDates, hc]

theorem convertDates_single (c : String) (cols : List String)
    (rows : List Row) (hc : c ∈ cols) :
    convertDates [c] cols rows = convertColumn c rows := by
  simp only [convertDates, if_pos hc]
  cases h : convertColumn c rows <;> rfl

/-! ## Foreign-key filter lemmas -/

theorem applyFkFilters_cons_mem (db : DB) (cols : List String) (c : String)
    (q : Query) (rest : List (String × Query)) (rows : List Row)
    (hc : c ∈ cols) :
    applyFkFilters db cols ((c, q) :: rest) rows
      = ((applyFkFilters db cols rest (rows.filter (passesFk db c q))).1,
         (c, rows.length - (rows.filter (passesFk db c q)).length)
           :: (applyFkFilters db cols rest
                (rows.filter (passesFk db c q))).2) := by
  simp [applyFkFilters, hc]

theorem applyFkFilters_cons_not_mem (db : DB) (cols : List String)
    (c : String) (q : Query) (rest : List (String × Query))
    (rows : List Row) (hc : c ∉ cols) :
    applyFkFilters db cols ((c, q) :: rest) rows
      = applyFkFilters db cols rest rows := by
  simp [applyFkFilters, hc]

theorem applyFkFilters_nil_rows (db : DB) (cols : List String)
    (fks : List (String × Query)) :
    (applyFkFilters db cols fks []).1 = [] := by
  induction fks with
  | nil => rfl
  | cons e rest ih =>
    obtain ⟨c, q⟩ := e
    by_cases hc : c ∈ cols <;>
      simp [applyFkFilters, hc, ih]

theorem passesFk_iff (db : DB) (c : String) (q : Query) (r : Row) :
    passesFk db c q r = true
      ↔ ∃ v, getCell r c = some v ∧ v ∈ q db := by
  unfold passesFk
  cases h : getCell r c <;> simp

theorem dedupStage_nil (T : String) : dedupStage T [] = [] := by
  unfold dedupStage
  cases PRIMARY_KEYS T <;> rfl

/-! ## Count-reporting lemmas for the loader -/

theorem load_dupWarned (db : DB) (T : String) (f : Frame)
    (dateCols : List String) (fkFilters : List (String × Query))
    (hpk : pkColsOk T f.cols = true) :
    (load_data_from_csv db T (some f) dateCols fkFilters).dupWarned
      = dupWarnCount T f.rows := by
  simp only [load_data_from_csv, hpk, if_true]
  split
  · rfl
  · split
    · split <;> rfl
    · rfl

theorem load_dupDropped (db : DB) (T : String) (f : Frame)
    (dateCols : List String) (fkFilters : List (String × Query))
    (hpk : pkColsOk T f.cols = true) :
    (load_data_from_csv db T (some f) dateCols fkFilters).dupDropped
      = f.rows.length - (dedupStage T f.rows).length := by
  simp only [load_data_from_csv, hpk, if_true]
  split
  · rfl
  · split
    · split <;> rfl
    · rfl

theorem load_fkRemoved (db : DB) (T : String) (f : Frame)
    (dateCols : List String) (fkFilters : List (String × Query))
    (rows2 : List Row)
    (hpk : pkColsOk T f.cols = true)
    (hconv : convertDates dateCols f.cols (dedupStage T f.rows) = some rows2) :
    (load_data_from_csv db T (some f) dateCols fkFilters).fkRemoved
      = (applyFkFilters (connect db) f.cols fkFilters rows2).2 := by
  simp only [load_data_from_csv, hpk, if_true, hconv]
  split
  · split <;> rfl
  · rfl

/-! ## Connection-handle accounting -/

/-- Handle-allocation sanity: every open handle was allocated below the
allocation counter, and no handle is tracked twice.  It holds of a fresh
run (no handles, counter zero) and is preserved by every operation. -/
def HandleInv (db : DB) : Prop :=
  (∀ h ∈ db.openHandles, h < db.nextHandle) ∧ db.openHandles.Nodup

theorem handleInv_connect (db : DB) (hi : HandleInv db) :
    HandleInv (connect db) := by
  obtain ⟨hb, hnd⟩ := hi
  constructor
  · intro x hx
    simp only [connect, List.mem_cons] at hx ⊢
    rcases hx with hx | hx
    · omega
    · have := hb x hx
      omega
  · simp only [connect, List.nodup_cons]
    exact ⟨fun hm => Nat.lt_irrefl _ (hb _ hm), hnd⟩

theorem handleInv_close (db : DB) (hi : HandleInv db) :
    HandleInv (close db) := by
  obtain ⟨hb, hnd⟩ := hi
  unfold close
  cases db.connOpen with
  | none => exact ⟨hb, hnd⟩
  | some x =>
    constructor
    · intro y hy
      exact hb y (List.mem_of_mem_erase hy)
    · exact hnd.erase x

theorem handleInv_load (db : DB) (T : String) (src : Option Frame)
    (dateCols : List String) (fkFilters : List (String × Query))
    (hi : HandleInv db) :
    HandleInv (load_data_from_csv db T src dateCols fkFilters).db := by
  unfold load_data_from_csv
  cases src with
  | none => exact hi
  | some f =>
    by_cases hpk : pkColsOk T f.cols = true
    · simp only [hpk, if_true]
      cases hcv : convertDates dateCols f.cols (dedupStage T f.rows) with
      | none => exact hi
      | some rows2 =>
        have h1 := handleInv_connect db hi
        by_cases hlv : T ∈ (connect db).live
        · simp only [if_pos hlv]
          by_cases hins : insertOk (setTable (connect db) T []) T
              (applyFkFilters (connect db) f.cols fkFilters rows2).1 = true
          · simp only [hins, if_true]
            exact h1
          · simp only [hins, if_false]
            exact h1
        · simp only [if_neg hlv]
          exact h1
    · simp only [hpk, if_false]
      exact hi

theorem handleInv_runLoads (env : Env)
    (specs : List (String × List String × List (String × Query))) (db : DB)
    (hi : HandleInv db) :
    HandleInv (runLoads env specs db).1 := by
  induction specs generalizing db with
  | nil => exact hi
  | cons spec rest ih =>
    obtain ⟨t, dc, fk⟩ := spec
    simp only [runLoads]
    have hl := handleInv_load db t (env.sources t) dc fk hi
    split
    · exact hl
    · exact ih _ hl

theorem handleInv_create_tables (db : DB) (hi : HandleInv db) :
    HandleInv (create_tables db) :=
  handleInv_connect db hi

theorem handleInv_recreateSchema (db : DB) (hi : HandleInv db) :
    HandleInv (recreateSchema db) :=
  handleInv_connect _ (handleInv_connect db hi)

theorem handleInv_mainBody (recreate : Bool) (env : Env) (db0 : DB)
    (hi : HandleInv db0) :
    HandleInv (mainBody recreate env db0) := by
  have h1 : HandleInv (if recreate then recreateSchema db0
      else create_tables db0) := by
    cases recreate
    · simpa using handleInv_create_tables db0 hi
    · simpa using handleInv_recreateSchema db0 hi
  have h2 := handleInv_runLoads env loadSpecs _ h1
  simp only [mainBody]
  rcases hp : runLoads env loadSpecs
      (if recreate then recreateSchema db0 else create_tables db0) with ⟨dbp, ab⟩
  rw [hp] at h2
  cases ab
  · exact handleInv_connect _ h2
  · exact h2

/-! ## Concrete fixtures used by the witnesses and counterexamples -/

/-- A store with the seven tables created and empty, permissive insert
checks, and a fresh connection state. -/
def dbW : DB :=
  { live := sevenTables, rows := fun _ => [],
    checkRow := fun _ _ => true, fkCheck := fun _ _ => true,
    fkEnforce := false, openHandles := [], nextHandle := 0, connOpen := none }

/-- A run in which every expected CSV extract is missing. -/
def envNone : Env := ⟨fun _ => none⟩

/-- Vendor record set R1. -/
def fR1 : Frame := ⟨["vendor_id"], [[("vendor_id", Val.s "V1")]]⟩

/-- Vendor record set R2, disjoint from R1. -/
def fR2 : Frame := ⟨["vendor_id"], [[("vendor_id", Val.s "V2")]]⟩

/-- The store after loading the vendor table with R1. -/
def db1W : DB := (load_data_from_csv dbW "vendor" (some fR1) [] []).db

/-- A store whose vendor table holds one row. -/
def dbC : DB :=
  { dbW with rows := fun t =>
      if t = "vendor" then [[("vendor_id", Val.s "V1")]] else [] }

/-- A present vendor extract with a header but zero data rows. -/
def emptyF : Frame := ⟨["vendor_id", "supplier_name"], []⟩

/-- A store whose vendor table holds one row and whose insert checks
reject every row (an insert-time constraint violation). -/
def dbFail : DB :=
  { dbC with checkRow := fun _ _ => false }

/-- The dedup example: three rows keyed on `vendor_id`, values 1, 1, 2. -/
def fV3 : Frame :=
  ⟨["vendor_id", "v"],
   [[("vendor_id", Val.i 1), ("v", Val.s "a")],
    [("vendor_id", Val.i 1), ("v", Val.s "b")],
    [("vendor_id", Val.i 2), ("v", Val.s "c")]]⟩

/-- A store whose purchase_order table holds keys A and B. -/
def dbPO : DB :=
  { dbW with rows := fun t =>
      if t = "purchase_order" then [[("po_id", Val.s "A")], [("po_id", Val.s "B")]]
      else [] }

/-- Incoming shipment rows referencing orders A and C (C is an orphan). -/
def fShip : Frame :=
  ⟨["shipment_id", "order_id"],
   [[("shipment_id", Val.s "S1"), ("order_id", Val.s "A")],
    [("shipment_id", Val.s "S2"), ("order_id", Val.s "C")]]⟩

/-- A demand extract whose date column holds an unparseable value. -/
def badDateFrame : Frame :=
  ⟨["date", "sku_id"], [[("date", Val.s "junk"), ("sku_id", Val.s "S1")]]⟩

/-- A row whose `date` cell is a datetime with a nonzero time of day. -/
def rowDT : Row := [("date", Val.dt 20240101 36000), ("sku_id", Val.s "S1")]

/-- Incoming shipment rows without an order_id column. -/
def fShipNoCol : Frame := ⟨["shipment_id"], [[("shipment_id", Val.s "S1")]]⟩

/-- A store whose foreign-key check rejects every row. -/
def dbNoFk : DB := { dbW with fkCheck := fun _ _ => false }

/-! ## C1 -/

/-- C1: a load call on table T with a present, non-empty source record set
that returns successfully leaves T holding exactly the incoming record set
after keep-first primary-key deduplication, date normalization, and
foreign-key filtering; the result is determined by the incoming frame (and
the reference queries) alone, so no row present in T before the call
survives it, and in particular a second load with a disjoint record set R2
leaves exactly R2. -/
theorem c1_replace_semantics (db : DB) (T : String) (f : Frame)
    (dateCols : List String) (fkFilters : List (String × Query))
    (rows2 : List Row)
    (hne : f.rows ≠ [])
    (hpk : pkColsOk T f.cols = true)
    (hconv : convertDates dateCols f.cols (dedupStage T f.rows) = some rows2)
    (hlive : T ∈ db.live)
    (hins : (applyFkFilters (connect db) f.cols fkFilters rows2).1.all
        (fun row => db.checkRow T row && db.fkCheck T row) = true) :
    (load_data_from_csv db T (some f) dateCols fkFilters).outcome
      = .loaded (applyFkFilters (connect db) f.cols fkFilters rows2).1.length
    ∧ (load_data_from_csv db T (some f) dateCols fkFilters).db.rows T
      = (applyFkFilters (connect db) f.cols fkFilters rows2).1 :=
  load_success db T f dateCols fkFilters rows2 hpk hconv hlive hins

/-- C1 witness: load vendor with R1, then with disjoint R2; the table ends
holding exactly R2 while it held exactly R1 before the second call. -/
theorem c1_replace_semantics_witness :
    ((load_data_from_csv db1W "vendor" (some fR2) [] []).db.rows "vendor"
        = (applyFkFilters (connect db1W) fR2.cols [] fR2.rows).1)
    ∧ (applyFkFilters (connect db1W) fR2.cols [] fR2.rows).1 = fR2.rows
    ∧ db1W.rows "vendor" = fR1.rows
    ∧ fR1.rows ≠ fR2.rows :=
  ⟨(c1_replace_semantics db1W "vendor" fR2 [] [] fR2.rows (by decide)
      (by decide) (by decide) (by decide) (by decide)).2,
   by decide, by decide, by decide⟩

/-! ## C2 -/

/-- C2: a load call that has run the committed delete and whose subsequent
insert fails the store's checks reports a fatal error and leaves the table
empty, whatever the table held before the call — the prior contents are not
restored. -/
theorem c2_failed_insert_leaves_empty (db : DB) (T : String) (f : Frame)
    (dateCols : List String) (fkFilters : List (String × Query))
    (rows2 : List Row)
    (hpk : pkColsOk T f.cols = true)
    (hconv : convertDates dateCols f.cols (dedupStage T f.rows) = some rows2)
    (hlive : T ∈ db.live)
    (hins : (applyFkFilters (connect db) f.cols fkFilters rows2).1.all
        (fun row => db.checkRow T row && db.fkCheck T row) = false) :
    (load_data_from_csv db T (some f) dateCols fkFilters).outcome
      = .fatal "constraint violation"
    ∧ (load_data_from_csv db T (some f) dateCols fkFilters).db.rows T = [] :=
  load_insert_failure db T f dateCols fkFilters rows2 hpk hconv hlive hins

/-- C2 witness: the vendor table holds a row, the incoming row fails the
insert check after the delete has run, and the table is left empty. -/
theorem c2_failed_insert_leaves_empty_witness :
    ((load_data_from_csv dbFail "vendor" (some fR2) [] []).outcome
        = .fatal "constraint violation")
    ∧ ((load_data_from_csv dbFail "vendor" (some fR2) [] []).db.rows "vendor"
        = [])
    ∧ dbFail.rows "vendor" ≠ [] :=
  ⟨(c2_failed_insert_leaves_empty dbFail "vendor" fR2 [] [] fR2.rows
      (by decide) (by decide) (by decide) (by decide)).1,
   (c2_failed_insert_leaves_empty dbFail "vendor" fR2 [] [] fR2.rows
      (by decide) (by decide) (by decide) (by decide)).2,
   by decide⟩

/-! ## C3 -/

/-- C3: loading a table whose declared primary key is the column set `pk`
retains, among incoming rows sharing identical key values, exactly the
first occurrence in input order (the deduplicated list is a sublist of the
input, and for each key it holds precisely the first matching input row),
and both reported duplicate counts (the `duplicated().sum()` warning and
the dropped-row count) equal the number of discarded rows. -/
theorem c3_dedup_keep_first (db : DB) (T : String) (f : Frame)
    (dateCols : List String) (fkFilters : List (String × Query))
    (pk : List String)
    (hT : PRIMARY_KEYS T = some pk)
    (hpk : pkColsOk T f.cols = true) :
    (∀ k, (dedupKeepFirst (rowKeyOn pk) f.rows).filter
        (fun row => decide (rowKeyOn pk row = k))
        = (f.rows.find? (fun row => decide (rowKeyOn pk row = k))).toList)
    ∧ List.Sublist (dedupKeepFirst (rowKeyOn pk) f.rows) f.rows
    ∧ (load_data_from_csv db T (some f) dateCols fkFilters).dupWarned
        = f.rows.length - (dedupKeepFirst (rowKeyOn pk) f.rows).length
    ∧ (load_data_from_csv db T (some f) dateCols fkFilters).dupDropped
        = f.rows.length - (dedupKeepFirst (rowKeyOn pk) f.rows).length := by
  refine ⟨?_, dedupAux_sublist _ _ _, ?_, ?_⟩
  · intro k
    have h := dedupAux_filter (rowKeyOn pk) k f.rows []
    simpa [dedupKeepFirst] using h
  · rw [load_dupWarned db T f dateCols fkFilters hpk]
    unfold dupWarnCount
    rw [hT]
    exact duplicatedCount_eq _ _
  · rw [load_dupDropped db T f dateCols fkFilters hpk]
    unfold dedupStage
    rw [hT]

/-- C3 witness: the spec's example, keyed on `vendor_id` with values
1, 1, 2: exactly the first `1`-row and the `2`-row remain and the reported
duplicate count is 1. -/
theorem c3_dedup_keep_first_witness :
    ((load_data_from_csv dbW "vendor" (some fV3) [] []).dupWarned
        = fV3.rows.length
          - (dedupKeepFirst (rowKeyOn ["vendor_id"]) fV3.rows).length)
    ∧ dedupKeepFirst (rowKeyOn ["vendor_id"]) fV3.rows
        = [[("vendor_id", Val.i 1), ("v", Val.s "a")],
           [("vendor_id", Val.i 2), ("v", Val.s "c")]]
    ∧ fV3.rows.length
        - (dedupKeepFirst (rowKeyOn ["vendor_id"]) fV3.rows).length = 1
    ∧ (load_data_from_csv dbW "vendor" (some fV3) [] []).db.rows "vendor"
        = [[("vendor_id", Val.i 1), ("v", Val.s "a")],
           [("vendor_id", Val.i 2), ("v", Val.s "c")]] :=
  ⟨(c3_dedup_keep_first dbW "vendor" fV3 [] [] ["vendor_id"] (by decide)
      (by decide)).2.2.1,
   by decide, by decide, by decide⟩

/-! ## C4 -/

/-- C4: for a foreign-key filter entry (c, q) whose column is present in
the incoming frame, filtering keeps exactly the rows whose value in c is in
the set currently returned by q and removes the others, the removed count
is recorded, and the filtering itself never makes the load fatal: if the
surviving rows pass the insert checks the load completes, inserting exactly
the surviving rows. -/
theorem c4_fk_filtering (db : DB) (T : String) (f : Frame)
    (dateCols : List String) (c : String) (q : Query)
    (rest : List (String × Query)) (rows2 : List Row)
    (hc : c ∈ f.cols)
    (hpk : pkColsOk T f.cols = true)
    (hconv : convertDates dateCols f.cols (dedupStage T f.rows) = some rows2)
    (hlive : T ∈ db.live) :
    (∀ rows, applyFkFilters (connect db) f.cols ((c, q) :: rest) rows
        = ((applyFkFilters (connect db) f.cols rest
              (rows.filter (passesFk (connect db) c q))).1,
           (c, rows.length - (rows.filter (passesFk (connect db) c q)).length)
             :: (applyFkFilters (connect db) f.cols rest
                  (rows.filter (passesFk (connect db) c q))).2))
    ∧ (∀ (rows : List Row) (row : Row),
        row ∈ rows.filter (passesFk (connect db) c q)
        ↔ row ∈ rows ∧ ∃ v, getCell row c = some v ∧ v ∈ q (connect db))
    ∧ ((load_data_from_csv db T (some f) dateCols [(c, q)]).fkRemoved
        = [(c, rows2.length
              - (rows2.filter (passesFk (connect db) c q)).length)])
    ∧ ((rows2.filter (passesFk (connect db) c q)).all
          (fun row => db.checkRow T row && db.fkCheck T row) = true →
        (load_data_from_csv db T (some f) dateCols [(c, q)]).outcome
          = .loaded (rows2.filter (passesFk (connect db) c q)).length
        ∧ (load_data_from_csv db T (some f) dateCols [(c, q)]).db.rows T
          = rows2.filter (passesFk (connect db) c q)) := by
  have hfk : applyFkFilters (connect db) f.cols [(c, q)] rows2
      = (rows2.filter (passesFk (connect db) c q),
         [(c, rows2.length
             - (rows2.filter (passesFk (connect db) c q)).length)]) := by
    rw [applyFkFilters_cons_mem _ _ _ _ _ _ hc]
    rfl
  refine ⟨fun rows => applyFkFilters_cons_mem _ _ _ _ _ _ hc, ?_, ?_, ?_⟩
  · intro rows row
    rw [List.mem_filter]
    exact and_congr_right fun _ => passesFk_iff (connect db) c q row
  · rw [load_fkRemoved db T f dateCols [(c, q)] rows2 hpk hconv, hfk]
  · intro hins
    have h2 := load_success db T f dateCols [(c, q)] rows2 hpk hconv hlive
      (by rw [hfk]; exact hins)
    rw [hfk] at h2
    exact h2

/-- C4 witness: the spec's orphan example — purchase orders {A, B},
incoming shipments referencing {A, C}: the C row is dropped, one row
survives, and the reported filtered count is 1. -/
theorem c4_fk_filtering_witness :
    ((load_data_from_csv dbPO "shipment" (some fShip) []
        [("order_id", fun db => colValues db "purchase_order" "po_id")]).fkRemoved
      = [("order_id", fShip.rows.length - (fShip.rows.filter
            (passesFk (connect dbPO) "order_id"
              (fun db => colValues db "purchase_order" "po_id"))).length)])
    ∧ fShip.rows.length - (fShip.rows.filter
          (passesFk (connect dbPO) "order_id"
            (fun db => colValues db "purchase_order" "po_id"))).length = 1
    ∧ fShip.rows.filter (passesFk (connect dbPO) "order_id"
          (fun db => colValues db "purchase_order" "po_id"))
        = [[("shipment_id", Val.s "S1"), ("order_id", Val.s "A")]] :=
  ⟨(c4_fk_filtering dbPO "shipment" fShip [] "order_id"
      (fun db => colValues db "purchase_order" "po_id") [] fShip.rows
      (by decide) (by decide) (by decide) (by decide)).2.2.1,
   by decide, by decide⟩

/-! ## C5 -/

/-- C5 counterexample: the claim says a load call with an empty source
record set is a no-op on the store, but loading the vendor table from a
present extract with zero data rows deletes the vendor table's prior
contents. -/
theorem c5_empty_source_counterexample :
    ((load_data_from_csv dbC "vendor" (some emptyF) [] []).db.rows "vendor"
        = [])
    ∧ dbC.rows "vendor" ≠ []
    ∧ (load_data_from_csv dbC "vendor" (some emptyF) [] []).db.rows "vendor"
        ≠ dbC.rows "vendor" := by decide

/-- C5 (amended): only a missing source is a no-op that leaves the table
untouched; a present source with zero data rows proceeds through the
replace path, deleting the table's prior contents and inserting nothing,
so the table ends empty with outcome `loaded 0`. -/
theorem c5_missing_source_no_op (db : DB) (T : String) (f : Frame)
    (dateCols : List String) (fkFilters : List (String × Query))
    (hlive : T ∈ db.live)
    (hpk : pkColsOk T f.cols = true)
    (hf : f.rows = []) :
    ((load_data_from_csv db T none dateCols fkFilters).db = db
      ∧ (load_data_from_csv db T none dateCols fkFilters).outcome
          = .skippedMissing)
    ∧ ((load_data_from_csv db T (some f) dateCols fkFilters).db.rows T = []
      ∧ (load_data_from_csv db T (some f) dateCols fkFilters).outcome
          = .loaded 0) := by
  refine ⟨⟨rfl, rfl⟩, ?_⟩
  have h0 : dedupStage T f.rows = [] := by rw [hf, dedupStage_nil]
  have hconv : convertDates dateCols f.cols (dedupStage T f.rows)
      = some [] := by
    rw [h0, convertDates_nil_rows]
  have hfk1 : (applyFkFilters (connect db) f.cols fkFilters
      ([] : List Row)).1 = [] :=
    applyFkFilters_nil_rows _ _ _
  have hins : (applyFkFilters (connect db) f.cols fkFilters
      ([] : List Row)).1.all
      (fun row => db.checkRow T row && db.fkCheck T row) = true := by
    rw [hfk1]; rfl
  have h2 := load_success db T f dateCols fkFilters [] hpk hconv hlive hins
  rw [hfk1] at h2
  exact ⟨h2.2, h2.1⟩

/-- C5 witness: with the vendor table holding a row, a missing source is a
pure no-op, while a present empty extract leaves the table empty. -/
theorem c5_missing_source_no_op_witness :
    ((load_data_from_csv dbC "vendor" none [] []).db = dbC
      ∧ (load_data_from_csv dbC "vendor" none [] []).outcome
          = .skippedMissing)
    ∧ ((load_data_from_csv dbC "vendor" (some emptyF) [] []).db.rows "vendor"
        = []
      ∧ (load_data_from_csv dbC "vendor" (some emptyF) [] []).outcome
          = .loaded 0) :=
  c5_missing_source_no_op dbC "vendor" emptyF [] [] (by decide) (by decide)
    (by decide)

/-! ## C6 -/

/-- C6 counterexample: the claim says every handle acquired via `connect()`
during a run is released by run exit, but a run of the entry point over
missing extracts, started with no open handles, exits with handle 0 (the
one `create_tables` acquired) still open — only the most recent handle
(the one `verify_tables` acquired) was closed by the `finally` block. -/
theorem c6_handles_counterexample :
    dbW.openHandles = []
    ∧ 0 ∈ (main false envNone dbW).openHandles := by decide

/-- C6 (amended): on every exit path the `finally` block's `close()`
releases exactly the most recently acquired session handle (the one
tracked by `self.conn`): that handle is not open at exit, while every
other handle still open at the end of the try-block remains open at exit —
each `connect()` overwrites the tracked handle without closing the
previous one, and the `with` blocks do not close their connections. -/
theorem c6_only_last_handle_closed (recreate : Bool) (env : Env) (db0 : DB)
    (hi : HandleInv db0) :
    (∀ h, (mainBody recreate env db0).connOpen = some h →
        h ∉ (main recreate env db0).openHandles)
    ∧ (∀ h, h ∈ (mainBody recreate env db0).openHandles →
        (mainBody recreate env db0).connOpen ≠ some h →
        h ∈ (main recreate env db0).openHandles) := by
  have hb := handleInv_mainBody recreate env db0 hi
  constructor
  · intro h hco
    unfold main close
    rw [hco]
    intro hmem
    rcases (List.Nodup.mem_erase_iff hb.2).mp hmem with ⟨hne, _⟩
    exact hne rfl
  · intro h hmem hne
    unfold main close
    cases hco : (mainBody recreate env db0).connOpen with
    | none => exact hmem
    | some x =>
      have hx : h ≠ x := fun he => hne (he ▸ hco)
      exact (List.mem_erase_of_ne hx).mpr hmem

/-- C6 witness: in the concrete missing-extracts run, the last handle (1)
is closed at exit and the earlier handle (0) remains open. -/
theorem c6_only_last_handle_closed_witness :
    1 ∉ (main false envNone dbW).openHandles
    ∧ 0 ∈ (main false envNone dbW).openHandles := by
  have h := c6_only_last_handle_closed false envNone dbW
    ⟨fun h hh => absurd hh (List.not_mem_nil h), List.nodup_nil⟩
  exact ⟨h.1 1 (by decide), h.2 0 (by decide) (by decide)⟩

/-! ## C7 -/

/-- C7: the recreate operation (drop every live user table with foreign
keys off, re-enable foreign keys, then create the schema) leaves exactly
the seven tables live, all empty, with foreign-key enforcement back on,
for any starting store including one with zero tables; running
create-schema again afterwards changes nothing: every one of the seven
tables exists with zero rows. -/
theorem c7_recreate_wipes_state (db : DB) :
    (recreateSchema db).live = sevenTables
    ∧ (∀ T, (recreateSchema db).rows T = [])
    ∧ (recreateSchema db).fkEnforce = true
    ∧ (create_tables (recreateSchema db)).live = sevenTables
    ∧ (∀ T, (create_tables (recreateSchema db)).rows T = []) := by
  refine ⟨rfl, ?_, rfl, rfl, ?_⟩
  · intro T
    show (if T ∉ ([] : List String) ∧ T ∈ sevenTables then ([] : List Row)
      else []) = []
    split <;> rfl
  · intro T
    show (if T ∉ sevenTables ∧ T ∈ sevenTables then ([] : List Row)
      else (recreateSchema db).rows T) = []
    split
    · rfl
    · show (if T ∉ ([] : List String) ∧ T ∈ sevenTables then ([] : List Row)
        else []) = []
      split <;> rfl

/-! ## C8 -/

/-- C8: a date-column value that parses as a datetime is normalized to its
calendar date with the time of day discarded (per cell and per row, other
columns unchanged), and a load whose date column contains an unparseable
value stops with a fatal error before touching the store. -/
theorem c8_date_normalization (r : Row) (c : String) (dd tt : Int)
    (hnd : (r.map Prod.fst).Nodup)
    (h : getCell r c = some (.dt dd tt)) :
    (∀ d2 t2, parseDate (.dt d2 t2) = some (.d d2))
    ∧ (∃ r2, convertRowCol c r = some r2 ∧ getCell r2 c = some (.d dd)
        ∧ ∀ k, k ≠ c → getCell r2 k = getCell r k)
    ∧ ((load_data_from_csv dbW "demand" (some badDateFrame) ["date"] []).outcome
          = .fatal "date parse error")
    ∧ ((load_data_from_csv dbW "demand" (some badDateFrame) ["date"] []).db
          = dbW) := by
  refine ⟨fun d2 t2 => rfl, convertRowCol_parses c r dd tt hnd h, by decide, rfl⟩

/-- C8 witness: a demand row whose date cell is a datetime with a nonzero
time of day is normalized to the bare calendar date; the sku cell is
untouched. -/
theorem c8_date_normalization_witness :
    convertRowCol "date" rowDT
      = some [("date", Val.d 20240101), ("sku_id", Val.s "S1")]
    ∧ parseDate (Val.dt 20240101 36000) = some (Val.d 20240101) := by
  have h := c8_date_normalization rowDT "date" 20240101 36000 (by decide)
    (by decide)
  exact ⟨by decide, h.1 20240101 36000⟩

/-! ## C9 -/

/-- C9: a column named in dateColumns or keying an fkFilters entry that is
absent from the incoming frame's header is silently skipped: no date
conversion, no filtering, no recorded removal, no error — the whole load
behaves exactly as if the date column and the filter had not been passed,
and the rows proceed to insertion unfiltered. -/
theorem c9_missing_column_skipped (db : DB) (T : String) (f : Frame)
    (c : String) (q : Query)
    (hc : c ∉ f.cols) :
    load_data_from_csv db T (some f) [c] [(c, q)]
      = load_data_from_csv db T (some f) [] []
    ∧ (∀ rows, convertDates [c] f.cols rows = some rows)
    ∧ (∀ (db1 : DB) (rows : List Row),
        applyFkFilters db1 f.cols [(c, q)] rows = (rows, [])) := by
  have h1 : ∀ rows, convertDates [c] f.cols rows = some rows := fun rows => by
    simp [convertDates, hc]
  have h2 : ∀ (db1 : DB) (rows : List Row),
      applyFkFilters db1 f.cols [(c, q)] rows = (rows, []) := fun db1 rows => by
    simp [applyFkFilters, hc]
  refine ⟨?_, h1, h2⟩
  have h0 : ∀ rows : List Row, convertDates [] f.cols rows = some rows :=
    fun _ => rfl
  have h00 : ∀ (db1 : DB) (rows : List Row),
      applyFkFilters db1 f.cols [] rows = (rows, []) := fun _ _ => rfl
  by_cases hpk : pkColsOk T f.cols = true
  · simp only [load_data_from_csv, hpk, if_true, h1, h2, h0, h00]
  · simp only [load_data_from_csv, hpk, if_false]
    rfl

/-- C9 witness: loading shipment rows that lack the order_id column, with
the order_id date conversion and foreign-key filter requested, behaves
exactly like a plain load and inserts the rows unfiltered. -/
theorem c9_missing_column_skipped_witness :
    (load_data_from_csv dbPO "shipment" (some fShipNoCol) ["order_id"]
        [("order_id", fun db => colValues db "purchase_order" "po_id")]
      = load_data_from_csv dbPO "shipment" (some fShipNoCol) [] [])
    ∧ (load_data_from_csv dbPO "shipment" (some fShipNoCol) ["order_id"]
        [("order_id", fun db => colValues db "purchase_order" "po_id")]).db.rows
          "shipment"
      = fShipNoCol.rows :=
  ⟨(c9_missing_column_skipped dbPO "shipment" fShipNoCol "order_id"
      (fun db => colValues db "purchase_order" "po_id") (by decide)).1,
   by decide⟩

/-! ## C10 -/

/-- C10: `connect()` turns foreign-key enforcement on before handing the
session to its caller; schema creation and verification both run on a
session obtained from `connect`, and a load call's delete-and-insert runs
with enforcement on, so the insert succeeds exactly when every inserted
row passes both the CHECK constraints and the foreign-key check. -/
theorem c10_fk_enforced_at_insert (db : DB) (T : String) (f : Frame)
    (dateCols : List String) (fkFilters : List (String × Query))
    (rows2 : List Row)
    (hpk : pkColsOk T f.cols = true)
    (hconv : convertDates dateCols f.cols (dedupStage T f.rows) = some rows2)
    (hlive : T ∈ db.live) :
    ((connect db).fkEnforce = true)
    ∧ (create_tables db = createTablesConn (connect db))
    ∧ ((verify_tables db).1 = connect db)
    ∧ (((load_data_from_csv db T (some f) dateCols fkFilters).outcome
          = .loaded (applyFkFilters (connect db) f.cols fkFilters rows2).1.length)
        ↔ (applyFkFilters (connect db) f.cols fkFilters rows2).1.all
            (fun row => db.checkRow T row && db.fkCheck T row) = true) := by
  refine ⟨rfl, rfl, rfl, ?_, ?_⟩
  · intro hl
    by_cases hins : (applyFkFilters (connect db) f.cols fkFilters rows2).1.all
        (fun row => db.checkRow T row && db.fkCheck T row) = true
    · exact hins
    · exfalso
      rw [Bool.not_eq_true] at hins
      have h2 := (load_insert_failure db T f dateCols fkFilters rows2 hpk
        hconv hlive hins).1
      rw [h2] at hl
      exact Outcome.noConfusion hl
  · intro hins
    exact (load_success db T f dateCols fkFilters rows2 hpk hconv hlive hins).1

/-- C10 witness: on a store whose foreign-key check rejects every row, a
vendor load connects with enforcement on and its insert is rejected — the
load ends in the constraint-violation error, not in success. -/
theorem c10_fk_enforced_at_insert_witness :
    ((connect dbNoFk).fkEnforce = true)
    ∧ (((load_data_from_csv dbNoFk "vendor" (some fR1) [] []).outcome
          = .loaded (applyFkFilters (connect dbNoFk) fR1.cols [] fR1.rows).1.length)
        ↔ (applyFkFilters (connect dbNoFk) fR1.cols [] fR1.rows).1.all
            (fun row => dbNoFk.checkRow "vendor" row
              && dbNoFk.fkCheck "vendor" row) = true)
    ∧ ((applyFkFilters (connect dbNoFk) fR1.cols [] fR1.rows).1.all
        (fun row => dbNoFk.checkRow "vendor" row
          && dbNoFk.fkCheck "vendor" row) = false)
    ∧ ((load_data_from_csv dbNoFk "vendor" (some fR1) [] []).outcome
        = .fatal "constraint violation") := by
  have h := c10_fk_enforced_at_insert dbNoFk "vendor" fR1 [] [] fR1.rows
    (by decide) (by decide) (by decide)
  exact ⟨h.1, h.2.2.2, by decide, by decide⟩

end SCDB
